import Mathlib

set_option maxHeartbeats 1000000
set_option maxRecDepth 100000
set_option linter.unusedVariables false

/-
Shallow embedding of pycoin's script interpreter core, `src/pycoin/tx/script/VM.py`.

Byte strings are modelled as `List Nat` (one entry per byte).  The collaborator
classes that `VM.py` imports but whose bodies are not part of the source tree
(`IntStreamer`, `ScriptCodec`, `ConditionalStack`, `Stack`, `errno`, `flags`)
are modelled from the specification, and each such definition is marked
`Modelled from the spec:` in its doc comment.  The opcode handler table
(`INSTRUCTION_LOOKUP`, built externally by `make_instruction_lookup`) and the
script codec are genuine external collaborators of the interpreter, so
`eval_instruction` / `eval_script` take them as parameters.
-/

namespace PycoinVM

abbrev Bytes := List Nat

/-- Modelled from the spec: the distinct, named error kinds of `errno` (the
`errno` module is not under src/); `OUT_OF_FUEL` is an artifact of the fuel
based loop encoding and is produced by no modelled check. -/
inductive ScriptErrno where
  | SCRIPT_SIZE
  | PUSH_SIZE
  | OP_COUNT
  | STACK_SIZE
  | INVALID_STACK_OPERATION
  | UNKNOWN_ERROR
  | BAD_OPCODE
  | MINIMALDATA
  | UNBALANCED_CONDITIONAL
  | OUT_OF_FUEL
  deriving DecidableEq, Repr

/-- A raised `ScriptError(msg, errno)` value. -/
structure ScriptError where
  msg : String
  errno : ScriptErrno
  deriving DecidableEq, Repr

/-- Python slice `l[start:stop]` (clamping at the list's end). -/
def sublist (l : Bytes) (start stop : Nat) : Bytes :=
  (l.drop start).take (stop - start)

/-- Little-endian base-256 digits of `n` (empty for 0); the first argument is
fuel, always called with fuel `n` which suffices. -/
def natToLEAux : Nat → Nat → Bytes
  | 0, _ => []
  | fuel + 1, n => if n = 0 then [] else n % 256 :: natToLEAux fuel (n / 256)

/-- Little-endian base-256 digits of `n`, no digits for 0. -/
def natToLE (n : Nat) : Bytes :=
  natToLEAux n n

/-- Value of a little-endian base-256 digit string. -/
def leToNat (b : Bytes) : Nat :=
  b.foldr (fun d acc => d + 256 * acc) 0

/-- Modelled from the spec: `IntStreamer.int_to_script_bytes` — zero encodes as
the empty string; otherwise little-endian magnitude bytes, a zero byte appended
when the magnitude's final byte already has the 0x80 bit set, and 0x80 ORed
into the final byte for negative values. -/
def int_to_script_bytes (v : Int) : Bytes :=
  if v = 0 then []
  else
    let m := natToLE v.natAbs
    let m := if 128 ≤ m.getLastD 0 then m ++ [0] else m
    if v < 0 then m.dropLast ++ [m.getLastD 0 ||| 128] else m

/-- Little-endian sign-magnitude reading of a byte string: the 0x80 bit of the
final byte is the sign, the rest is the magnitude.  This is the
`require_minimal := false` behaviour of `IntStreamer.int_from_script_bytes`. -/
def raw_decode (b : Bytes) : Int :=
  match b.getLast? with
  | none => 0
  | some last =>
    let mag := leToNat (b.dropLast ++ [last % 128])
    if 128 ≤ last then -(mag : Int) else (mag : Int)

/-- Modelled from the spec: `IntStreamer.int_from_script_bytes` — decode as
little-endian sign-magnitude; under `require_minimal`, fail unless `b` is
exactly the canonical encoding of its own value. -/
def int_from_script_bytes (b : Bytes) (require_minimal : Bool) : Except ScriptError Int :=
  if require_minimal ∧ b ≠ int_to_script_bytes (raw_decode b) then
    .error ⟨"non-minimally encoded", ScriptErrno.MINIMALDATA⟩
  else .ok (raw_decode b)

/-- `VM.bool_from_script_bytes` from the source: decode as an integer; under
`require_minimal` additionally reject any value other than 0 or 1; return the
truthiness of the integer. -/
def bool_from_script_bytes (b : Bytes) (require_minimal : Bool) : Except ScriptError Bool :=
  match int_from_script_bytes b require_minimal with
  | .error e => .error e
  | .ok v =>
    if require_minimal ∧ v ≠ 0 ∧ v ≠ 1 then
      .error ⟨"non-minimally encoded", ScriptErrno.UNKNOWN_ERROR⟩
    else .ok (v != 0)

/-- `VM.nonnegative_int_from_script_bytes` from the source. -/
def nonnegative_int_from_script_bytes (b : Bytes) (require_minimal : Bool) : Except ScriptError Int :=
  match int_from_script_bytes b require_minimal with
  | .error e => .error e
  | .ok v =>
    if v < 0 then .error ⟨"unexpectedly got negative value", ScriptErrno.INVALID_STACK_OPERATION⟩
    else .ok v

def MAX_SCRIPT_LENGTH : Nat := 10000
def MAX_BLOB_LENGTH : Nat := 520
def MAX_OP_COUNT : Nat := 201
def MAX_STACK_SIZE : Nat := 1000

/-- Modelled from the spec: the `VERIFY_MINIMALDATA` bit of the `flags` module
(not under src/); the flag set is a bitmask and only this one bit matters to
the core, its numeric value is immaterial. -/
def VERIFY_MINIMALDATA : Nat := 64

/-- Modelled from the spec: width of the little-endian length field following
OP_PUSHDATA1/2/4 (`dec_length` of `make_variable_decoder` at the bottom of
VM.py: 1, 2 and 4 bytes respectively). -/
def pushdata_size_length (opcode : Nat) : Nat :=
  if opcode = 76 then 1 else if opcode = 77 then 2 else 4

/-- Modelled from the spec: the minimal-push rule — a push must use the
shortest valid encoding for the pushed data (the empty push uses OP_0, the
canonical one-byte encodings of 1..16 and -1 use the dedicated small-integer
opcodes, data of length at most 75 uses a direct push, and a PUSHDATA form is
allowed only when no shorter form can express the length). -/
def minimal_push_ok (opcode : Nat) (data : Bytes) : Bool :=
  if data.length = 0 then opcode = 0
  else if data.length = 1 && 1 ≤ data.getD 0 0 && data.getD 0 0 ≤ 16 then opcode = 80 + data.getD 0 0
  else if data.length = 1 && data.getD 0 0 = 129 then opcode = 79
  else if data.length ≤ 75 then opcode = data.length
  else if data.length ≤ 255 then opcode = 76
  else if data.length ≤ 65535 then opcode = 77
  else true

/-- Modelled from the spec: `ScriptCodec.get_opcode` (the `ScriptCodec` class
is not under src/; its push-opcode tables and the PUSHDATA length decoders are
built at the bottom of VM.py).  Returns `(opcode, data, new_pc)`.  Byte values
follow the standard push-opcode assignments consumed by those tables: OP_0 = 0,
direct pushes 1..75 carry their own length, OP_PUSHDATA1/2/4 = 76/77/78,
OP_1NEGATE = 79, OP_1..OP_16 = 81..96; every other byte is a plain opcode that
advances one byte and carries no data.  Truncated reads fail, and under
`verify_minimal_data` a push that is not the shortest valid encoding fails. -/
def get_opcode (script : Bytes) (pc : Nat) (verify_minimal_data : Bool) :
    Except ScriptError (Nat × Option Bytes × Nat) :=
  if hpc : pc < script.length then
    let opcode := script.get ⟨pc, hpc⟩
    if opcode = 0 then
      .ok (opcode, some (int_to_script_bytes 0), pc + 1)
    else if opcode ≤ 75 then
      let data := sublist script (pc + 1) (pc + 1 + opcode)
      if data.length < opcode then
        .error ⟨"unexpected end of data", ScriptErrno.BAD_OPCODE⟩
      else if verify_minimal_data && !(minimal_push_ok opcode data) then
        .error ⟨"non-minimal data push", ScriptErrno.MINIMALDATA⟩
      else .ok (opcode, some data, pc + 1 + opcode)
    else if opcode = 76 ∨ opcode = 77 ∨ opcode = 78 then
      let dec_length := pushdata_size_length opcode
      let size_blob := sublist script (pc + 1) (pc + 1 + dec_length)
      if size_blob.length < dec_length then
        .error ⟨"unexpected end of data when size expected", ScriptErrno.BAD_OPCODE⟩
      else
        let size := leToNat size_blob
        let pc2 := pc + 1 + dec_length
        let data := sublist script pc2 (pc2 + size)
        if data.length < size then
          .error ⟨"unexpected end of data", ScriptErrno.BAD_OPCODE⟩
        else if verify_minimal_data && !(minimal_push_ok opcode data) then
          .error ⟨"non-minimal data push", ScriptErrno.MINIMALDATA⟩
        else .ok (opcode, some data, pc2 + size)
    else if opcode = 79 then
      .ok (opcode, some (int_to_script_bytes (-1)), pc + 1)
    else if 81 ≤ opcode ∧ opcode ≤ 96 then
      .ok (opcode, some (int_to_script_bytes ((opcode : Int) - 80)), pc + 1)
    else
      .ok (opcode, none, pc + 1)
  else .error ⟨"attempt to read past end of script", ScriptErrno.BAD_OPCODE⟩

/-- One record yielded by `VM.get_opcodes`: `(opcode, data, pc, new_pc)`. -/
structure OpRecord where
  opcode : Nat
  data : Option Bytes
  pc : Nat
  new_pc : Nat
  deriving DecidableEq, Repr

/-- Recursion core of `VM.get_opcodes`: decode records from offset `pc` until
the end of the script, propagating the first decode failure.  The first `Nat`
is fuel; `script.length + 1` always suffices because every successful decode
strictly advances `pc`. -/
def get_opcodesAux (script : Bytes) (verify_minimal_data : Bool) : Nat → Nat → Except ScriptError (List OpRecord)
  | 0, _ => .error ⟨"out of fuel", ScriptErrno.OUT_OF_FUEL⟩
  | fuel + 1, pc =>
    if pc < script.length then
      match get_opcode script pc verify_minimal_data with
      | .error e => .error e
      | .ok (opcode, data, new_pc) =>
        match get_opcodesAux script verify_minimal_data fuel new_pc with
        | .error e => .error e
        | .ok rest => .ok (⟨opcode, data, pc, new_pc⟩ :: rest)
    else .ok []

/-- `VM.get_opcodes` from the source: the `pc` parameter is immediately
overwritten with 0 (`pc = 0` on the first line of the body), after which the
script is decoded from the start. -/
def get_opcodes (script : Bytes) (verify_minimal_data : Bool) (pc : Nat) : Except ScriptError (List OpRecord) :=
  get_opcodesAux script verify_minimal_data (script.length + 1) 0

/-- `VM.delete_subscript` from the source: rebuild the script from its decoded
instructions, dropping every instruction whose raw byte range equals
`subscript`. -/
def delete_subscript (script subscript : Bytes) : Except ScriptError Bytes :=
  match get_opcodes script false 0 with
  | .error e => .error e
  | .ok records =>
    .ok (records.foldl
      (fun new_script r =>
        if sublist script r.pc r.new_pc = subscript then new_script
        else new_script ++ sublist script r.pc r.new_pc) [])

/-- Interpreter run state (the fields of `self` that `eval_script` initialises
and the core reads or writes).  `tx_context`, `begin_code_hash`,
`traceback_f` and `signature_for_hash_type_f` are opaque to every claim and
are omitted; the instrumentation hook is modelled as absent. -/
structure VMState where
  pc : Nat
  stack : List Bytes
  script : Bytes
  altstack : List Bytes
  conditional_stack : List Bool
  op_count : Nat
  flags : Nat
  deriving DecidableEq, Repr

/-- An entry of the externally built `INSTRUCTION_LOOKUP` table: the handler
body plus its `outside_conditional` attribute tag. -/
structure Handler where
  run : VMState → Except ScriptError VMState
  outside_conditional : Bool

/-- The type of `ScriptCodec.get_opcode` as the interpreter consumes it. -/
abbrev Decoder := Bytes → Nat → Bool → Except ScriptError (Nat × Option Bytes × Nat)

/-- Modelled from the spec: `ConditionalStack.all_if_true` — the AND of every
entry, true on an empty stack (the `ConditionalStack` class is not under
src/). -/
def ConditionalStack.all_if_true (cs : List Bool) : Bool :=
  cs.all fun b => b

/-- Modelled from the spec: `ConditionalStack.check_final_state` — fail with an
unbalanced-conditional error unless the stack is empty at end of script. -/
def ConditionalStack.check_final_state (cs : List Bool) : Except ScriptError Unit :=
  if cs = [] then .ok ()
  else .error ⟨"unbalanced conditional", ScriptErrno.UNBALANCED_CONDITIONAL⟩

/-- `VM.check_stack_size` from the source. -/
def check_stack_size (s : VMState) : Except ScriptError Unit :=
  if MAX_STACK_SIZE < s.stack.length + s.altstack.length then
    .error ⟨"stack has > 1000 items", ScriptErrno.STACK_SIZE⟩
  else .ok ()

/-- `VM.post_script_check` from the source. -/
def post_script_check (s : VMState) : Except ScriptError Unit :=
  (ConditionalStack.check_final_state s.conditional_stack).bind fun _ => check_stack_size s

/-- The guard `if data and len(data) > self.MAX_BLOB_LENGTH` of
`eval_instruction` (both `None` and an empty byte string are falsy). -/
def data_push_too_big : Option Bytes → Bool
  | none => false
  | some d => decide (MAX_BLOB_LENGTH < d.length)

/-- The push `if data is not None and all_if_true: self.stack.append(data)` of
`eval_instruction`. -/
def push_if_active (data : Option Bytes) (all_if_true : Bool) (s : VMState) : VMState :=
  match data, all_if_true with
  | some d, true => { s with stack := s.stack ++ [d] }
  | _, _ => s

/-- Tail of `eval_instruction`: `self.pc = pc`, then the post-step op-count
ceiling check. -/
def step_finish (pc : Nat) (s : VMState) : Except ScriptError VMState :=
  let s' := { s with pc := pc }
  if MAX_OP_COUNT < s'.op_count then
    .error ⟨"script contains too many operations", ScriptErrno.OP_COUNT⟩
  else .ok s'

/-- `VM.eval_instruction` from the source, parametrised by the external script
codec `g` and handler table `lookup`. -/
def eval_instruction (g : Decoder) (lookup : Nat → Handler) (s : VMState) : Except ScriptError VMState :=
  let all_if_true := ConditionalStack.all_if_true s.conditional_stack
  let verify_minimal_data := (s.flags &&& VERIFY_MINIMALDATA != 0) && all_if_true
  match g s.script s.pc verify_minimal_data with
  | .error e => .error e
  | .ok (opcode, data, pc) =>
    if data_push_too_big data then
      .error ⟨"pushing too much data onto stack", ScriptErrno.PUSH_SIZE⟩
    else
      let s1 := if data = none then { s with op_count := s.op_count + 1 } else s
      match check_stack_size s1 with
      | .error e => .error e
      | .ok _ =>
        let f := lookup opcode
        let s2 := push_if_active data all_if_true s1
        (if all_if_true || f.outside_conditional then f.run s2 else .ok s2).bind (step_finish pc)

/-- The `while self.pc < len(self.script)` loop of `eval_script`, with explicit
fuel (handlers are arbitrary functions in this embedding, so the loop is not
structurally decreasing; `script.length + 1` fuel suffices whenever handlers
leave `pc` and `script` alone, since every decode strictly advances `pc`). -/
def eval_loop (g : Decoder) (lookup : Nat → Handler) : Nat → VMState → Except ScriptError VMState
  | 0, _ => .error ⟨"out of fuel", ScriptErrno.OUT_OF_FUEL⟩
  | fuel + 1, s =>
    if s.pc < s.script.length then (eval_instruction g lookup s).bind (eval_loop g lookup fuel)
    else .ok s

/-- The run state `eval_script` initialises before entering its loop
(`initial_stack or self.Stack()`: a missing or empty initial stack becomes a
fresh empty stack, which is extensionally `initial_stack.getD []`). -/
def initial_state (flags : Nat) (script : Bytes) (initial_stack : Option (List Bytes)) : VMState :=
  { pc := 0
    stack := initial_stack.getD []
    script := script
    altstack := []
    conditional_stack := []
    op_count := 0
    flags := flags }

/-- `VM.eval_script` from the source: the up-front script-length check, the
instruction loop, the post-loop checks, and the final stack as result. -/
def eval_script (g : Decoder) (lookup : Nat → Handler) (flags : Nat) (script : Bytes)
    (initial_stack : Option (List Bytes)) : Except ScriptError (List Bytes) :=
  if MAX_SCRIPT_LENGTH < script.length then
    .error ⟨"script too long", ScriptErrno.SCRIPT_SIZE⟩
  else
    (eval_loop g lookup (script.length + 1) (initial_state flags script initial_stack)).bind
      fun s => (post_script_check s).bind fun _ => .ok s.stack

/-- Modelled from the spec: items 8 and 9 of the per-step algorithm — when the
record carries data and the branch is active, push the data onto the main
stack first; then invoke the handler exactly when the branch is active or the
handler is marked to run outside conditionals; finally advance `pc` and
re-check the op-count ceiling. -/
def spec_push_then_dispatch (lookup : Nat → Handler) (opcode : Nat) (d : Bytes) (pc : Nat)
    (s : VMState) : Except ScriptError VMState :=
  let active := ConditionalStack.all_if_true s.conditional_stack
  let f := lookup opcode
  let s' := push_if_active (some d) active s
  (if active || f.outside_conditional then f.run s' else .ok s').bind (step_finish pc)

/-- A handler table whose handlers all succeed but reset the executed-opcode
counter; used to exhibit an external-handler context that defeats the op-count
ceiling. -/
def lookup_reset : Nat → Handler :=
  fun _ => ⟨fun st => .ok { st with op_count := 0 }, false⟩

/-- A handler table whose handlers all succeed and return the state
unchanged. -/
def lookup_id : Nat → Handler :=
  fun _ => ⟨fun st => .ok st, false⟩

/-- `chain_to script p q rs` states that the records `rs` decode contiguous,
nonempty, in-bounds byte ranges starting at offset `p` and ending exactly at
offset `q`. -/
def chain_to (script : Bytes) : Nat → Nat → List OpRecord → Prop
  | p, q, [] => p = q
  | p, q, r :: rs => r.pc = p ∧ p < r.new_pc ∧ r.new_pc ≤ script.length ∧ chain_to script r.new_pc q rs

/-- Under a successful decode, a passing blob-size check and a passing stack
size check, one interpreter step is: maybe count the op, maybe push the data,
dispatch the handler when the branch is active or the handler is tagged, then
advance `pc` and re-check the op count. -/
lemma eval_instruction_characterize (g : Decoder) (lookup : Nat → Handler) (s : VMState)
    (opcode : Nat) (data : Option Bytes) (pc : Nat)
    (hdec : g s.script s.pc ((s.flags &&& VERIFY_MINIMALDATA != 0) &&
        ConditionalStack.all_if_true s.conditional_stack) = .ok (opcode, data, pc))
    (hbig : data_push_too_big data = false)
    (hstack : s.stack.length + s.altstack.length ≤ MAX_STACK_SIZE) :
    eval_instruction g lookup s =
      ((if ConditionalStack.all_if_true s.conditional_stack || (lookup opcode).outside_conditional then
          (lookup opcode).run (push_if_active data (ConditionalStack.all_if_true s.conditional_stack)
            (if data = none then { s with op_count := s.op_count + 1 } else s))
        else
          .ok (push_if_active data (ConditionalStack.all_if_true s.conditional_stack)
            (if data = none then { s with op_count := s.op_count + 1 } else s))).bind
        (step_finish pc)) := by
  rcases data with _ | d
  · simp only [eval_instruction, hdec]
    simp [data_push_too_big, check_stack_size, Nat.not_lt.mpr hstack]
  · simp only [eval_instruction, hdec]
    simp [hbig, check_stack_size, Nat.not_lt.mpr hstack]

/-- C5: a script longer than MAX_SCRIPT_LENGTH = 10000 bytes fails with the
script-size error regardless of decoder, handler table, flags or initial
stack (so before any opcode is decoded or any run state consulted); a script
of length at most 10000 passes the check and evaluation is exactly the
instruction loop on the freshly initialised run state followed by the
post-loop checks. -/
theorem script_length_precheck :
    (∀ (g : Decoder) (lookup : Nat → Handler) (flags : Nat) (initial_stack : Option (List Bytes))
        (script : Bytes), MAX_SCRIPT_LENGTH < script.length →
      eval_script g lookup flags script initial_stack
        = .error ⟨"script too long", ScriptErrno.SCRIPT_SIZE⟩)
    ∧ (∀ (g : Decoder) (lookup : Nat → Handler) (flags : Nat) (initial_stack : Option (List Bytes))
        (script : Bytes), script.length ≤ MAX_SCRIPT_LENGTH →
      eval_script g lookup flags script initial_stack
        = (eval_loop g lookup (script.length + 1) (initial_state flags script initial_stack)).bind
            fun s => (post_script_check s).bind fun _ => .ok s.stack) := by
  constructor
  · intro g lookup flags initial_stack script h
    simp [eval_script, h]
  · intro g lookup flags initial_stack script h
    simp [eval_script, Nat.not_lt.mpr h]

/-- C5 witness: a 10001-byte script fails with the script-size error. -/
theorem script_length_precheck_witness :
    eval_script get_opcode lookup_id 0 (List.replicate (MAX_SCRIPT_LENGTH + 1) 0) none
      = .error ⟨"script too long", ScriptErrno.SCRIPT_SIZE⟩ :=
  script_length_precheck.1 get_opcode lookup_id 0 none (List.replicate (MAX_SCRIPT_LENGTH + 1) 0)
    (by simp)

/-- C6: when the decoded record carries push-data longer than MAX_BLOB_LENGTH
= 520 bytes, the step fails with the push-size error for every handler table
(hence before `op_count` is touched, before any push and before any handler
runs) and for every conditional-stack state. -/
theorem push_size_limit :
    ∀ (g : Decoder) (lookup : Nat → Handler) (s : VMState) (opcode : Nat) (d : Bytes) (pc : Nat),
      g s.script s.pc ((s.flags &&& VERIFY_MINIMALDATA != 0) &&
          ConditionalStack.all_if_true s.conditional_stack) = .ok (opcode, some d, pc) →
      MAX_BLOB_LENGTH < d.length →
      eval_instruction g lookup s = .error ⟨"pushing too much data onto stack", ScriptErrno.PUSH_SIZE⟩ := by
  intro g lookup s opcode d pc hdec hlen
  simp only [eval_instruction, hdec]
  simp [data_push_too_big, hlen]

/-- C6 witness: an OP_PUSHDATA2 record declaring 521 bytes fails with the
push-size error. -/
theorem push_size_limit_witness :
    eval_instruction get_opcode lookup_id
        (initial_state 0 (77 :: 9 :: 2 :: List.replicate 521 0) none)
      = .error ⟨"pushing too much data onto stack", ScriptErrno.PUSH_SIZE⟩ :=
  push_size_limit get_opcode lookup_id (initial_state 0 (77 :: 9 :: 2 :: List.replicate 521 0) none)
    77 (List.replicate 521 0) 524 rfl (by simp [MAX_BLOB_LENGTH])

/-- C2: the step consults the decoder only at the current script, current pc,
and with minimal-push verification active exactly when the VERIFY_MINIMALDATA
bit is set in the run's flags and all enclosing branches are true; when either
condition fails, the decode is performed without minimality enforcement, and
when both hold it is performed with it. -/
theorem minimal_data_coupling :
    (∀ (g₁ g₂ : Decoder) (lookup : Nat → Handler) (s : VMState),
      g₁ s.script s.pc ((s.flags &&& VERIFY_MINIMALDATA != 0) &&
          ConditionalStack.all_if_true s.conditional_stack)
        = g₂ s.script s.pc ((s.flags &&& VERIFY_MINIMALDATA != 0) &&
          ConditionalStack.all_if_true s.conditional_stack) →
      eval_instruction g₁ lookup s = eval_instruction g₂ lookup s)
    ∧ (∀ (g : Decoder) (lookup : Nat → Handler) (s : VMState),
      s.flags &&& VERIFY_MINIMALDATA = 0 ∨ ConditionalStack.all_if_true s.conditional_stack = false →
      eval_instruction g lookup s = eval_instruction (fun scr p _ => g scr p false) lookup s)
    ∧ (∀ (g : Decoder) (lookup : Nat → Handler) (s : VMState),
      s.flags &&& VERIFY_MINIMALDATA ≠ 0 → ConditionalStack.all_if_true s.conditional_stack = true →
      eval_instruction g lookup s = eval_instruction (fun scr p _ => g scr p true) lookup s) := by
  refine ⟨?_, ?_, ?_⟩
  · intro g₁ g₂ lookup s h
    simp only [eval_instruction]
    rw [h]
  · intro g lookup s h
    have hv : ((s.flags &&& VERIFY_MINIMALDATA != 0) &&
        ConditionalStack.all_if_true s.conditional_stack) = false := by
      rcases h with h | h <;> simp [h]
    simp only [eval_instruction, hv]
  · intro g lookup s h1 h2
    have hv : ((s.flags &&& VERIFY_MINIMALDATA != 0) &&
        ConditionalStack.all_if_true s.conditional_stack) = true := by
      simp [h1, h2]
    simp only [eval_instruction, hv]

/-- C2 witness: with the flag clear, the step equals the same step run with a
decoder whose minimality argument is forced to false. -/
theorem minimal_data_coupling_witness :
    eval_instruction get_opcode lookup_id (initial_state 0 [81] none)
      = eval_instruction (fun scr p _ => get_opcode scr p false) lookup_id
          (initial_state 0 [81] none) :=
  minimal_data_coupling.2.1 get_opcode lookup_id (initial_state 0 [81] none) (Or.inl rfl)

/-- C9: `get_opcodes` yields the same record sequence for every value of its
`pc` argument as for `pc = 0`, because the body overwrites `pc` with 0 before
decoding. -/
theorem get_opcodes_ignores_pc :
    ∀ (script : Bytes) (verify_minimal_data : Bool) (pc : Nat),
      get_opcodes script verify_minimal_data pc = get_opcodes script verify_minimal_data 0 :=
  fun _ _ _ => rfl

/-- C1: under a successful decode of a push record (with its data within the
blob limit and the stacks within the size limit), the step is exactly the
spec's push-then-dispatch order: data is appended to the main stack only when
all enclosing branches are true and before the handler is invoked, and the
handler is invoked exactly when the branch is active or it is tagged
`outside_conditional`; when the branch is inactive the state handed to the
handler carries the unchanged main stack. -/
theorem push_data_gating :
    ∀ (g : Decoder) (lookup : Nat → Handler) (s : VMState) (opcode : Nat) (d : Bytes) (pc : Nat),
      g s.script s.pc ((s.flags &&& VERIFY_MINIMALDATA != 0) &&
          ConditionalStack.all_if_true s.conditional_stack) = .ok (opcode, some d, pc) →
      d.length ≤ MAX_BLOB_LENGTH →
      s.stack.length + s.altstack.length ≤ MAX_STACK_SIZE →
      eval_instruction g lookup s = spec_push_then_dispatch lookup opcode d pc s
      ∧ (ConditionalStack.all_if_true s.conditional_stack = false →
          push_if_active (some d) (ConditionalStack.all_if_true s.conditional_stack) s = s) := by
  intro g lookup s opcode d pc hdec hlen hstack
  have hbig : data_push_too_big (some d) = false := by
    simp [data_push_too_big, Nat.not_lt.mpr hlen]
  constructor
  · rw [eval_instruction_characterize g lookup s opcode (some d) pc hdec hbig hstack]
    simp [spec_push_then_dispatch]
  · intro hfalse
    rw [hfalse]
    rfl

/-- C1 witness: a direct one-byte push at the top level. -/
theorem push_data_gating_witness :
    eval_instruction get_opcode lookup_id (initial_state 0 [1, 171] none)
        = spec_push_then_dispatch lookup_id 1 [171] 2 (initial_state 0 [1, 171] none)
      ∧ (ConditionalStack.all_if_true (initial_state 0 [1, 171] none).conditional_stack = false →
          push_if_active (some [171])
            (ConditionalStack.all_if_true (initial_state 0 [1, 171] none).conditional_stack)
            (initial_state 0 [1, 171] none) = initial_state 0 [1, 171] none) :=
  push_data_gating get_opcode lookup_id (initial_state 0 [1, 171] none) 1 [171] 2 rfl
    (by simp [MAX_BLOB_LENGTH]) (by simp [initial_state, MAX_STACK_SIZE])

/-- C4: the combined main+alt stack size ceiling of 1000: (i) when it is
exceeded at the start of a step (after a successful, blob-size-passing
decode), the step fails with the stack-size error for every handler table —
so before dispatch and before the data push; (ii) when it holds at the start
of a step with a succeeding no-op handler, the step never produces the
stack-size error; (iii) after the loop, `post_script_check` produces a
stack-size error exactly when the conditional stack is balanced and the
combined size exceeds 1000. -/
theorem stack_size_checkpoints :
    (∀ (g : Decoder) (lookup : Nat → Handler) (s : VMState) (opcode : Nat) (data : Option Bytes)
        (pc : Nat),
      g s.script s.pc ((s.flags &&& VERIFY_MINIMALDATA != 0) &&
          ConditionalStack.all_if_true s.conditional_stack) = .ok (opcode, data, pc) →
      data_push_too_big data = false →
      MAX_STACK_SIZE < s.stack.length + s.altstack.length →
      eval_instruction g lookup s = .error ⟨"stack has > 1000 items", ScriptErrno.STACK_SIZE⟩)
    ∧ (∀ (g : Decoder) (lookup : Nat → Handler) (s : VMState) (opcode : Nat) (data : Option Bytes)
        (pc : Nat),
      g s.script s.pc ((s.flags &&& VERIFY_MINIMALDATA != 0) &&
          ConditionalStack.all_if_true s.conditional_stack) = .ok (opcode, data, pc) →
      data_push_too_big data = false →
      (∀ st, (lookup opcode).run st = .ok st) →
      s.stack.length + s.altstack.length ≤ MAX_STACK_SIZE →
      eval_instruction g lookup s ≠ .error ⟨"stack has > 1000 items", ScriptErrno.STACK_SIZE⟩)
    ∧ (∀ s : VMState,
      (∃ e, post_script_check s = .error e ∧ e.errno = ScriptErrno.STACK_SIZE) ↔
        (s.conditional_stack = [] ∧ MAX_STACK_SIZE < s.stack.length + s.altstack.length)) := by
  refine ⟨?_, ?_, ?_⟩
  · intro g lookup s opcode data pc hdec hbig hgt
    rcases data with _ | d
    · simp only [eval_instruction, hdec]
      simp [data_push_too_big, check_stack_size, hgt]
    · simp only [eval_instruction, hdec]
      simp [hbig, check_stack_size, hgt]
  · intro g lookup s opcode data pc hdec hbig hid hstack
    rw [eval_instruction_characterize g lookup s opcode data pc hdec hbig hstack, hid, ite_self]
    show step_finish pc _ ≠ _
    simp only [step_finish]
    split <;> split <;> simp
  · intro s
    unfold post_script_check ConditionalStack.check_final_state check_stack_size
    by_cases hcs : s.conditional_stack = []
    · rw [if_pos hcs]
      by_cases hlen : MAX_STACK_SIZE < s.stack.length + s.altstack.length
      · rw [if_pos hlen]
        constructor
        · intro _; exact ⟨hcs, hlen⟩
        · intro _
          exact ⟨⟨"stack has > 1000 items", ScriptErrno.STACK_SIZE⟩, rfl, rfl⟩
      · rw [if_neg hlen]
        constructor
        · rintro ⟨e, he, -⟩
          exact absurd he (by simp [Except.bind])
        · rintro ⟨-, h⟩; exact absurd h hlen
    · rw [if_neg hcs]
      constructor
      · rintro ⟨e, he, herr⟩
        have he' : (⟨"unbalanced conditional", ScriptErrno.UNBALANCED_CONDITIONAL⟩ : ScriptError) = e := by
          simpa [Except.bind] using he
        rw [← he'] at herr
        simp at herr
      · rintro ⟨h, -⟩; exact absurd h hcs

/-- C4 witness: a step starting with 1001 items on the main stack fails with
the stack-size error. -/
theorem stack_size_checkpoints_witness :
    eval_instruction get_opcode lookup_id
        { pc := 0, stack := List.replicate 1001 [], script := [97], altstack := [],
          conditional_stack := [], op_count := 0, flags := 0 }
      = .error ⟨"stack has > 1000 items", ScriptErrno.STACK_SIZE⟩ :=
  stack_size_checkpoints.1 get_opcode lookup_id
    { pc := 0, stack := List.replicate 1001 [], script := [97], altstack := [],
      conditional_stack := [], op_count := 0, flags := 0 }
    97 none 1 rfl rfl (by simp [MAX_STACK_SIZE])

/-- Decoding any offset of an all-OP_NOP script yields a dataless record that
advances one byte, for either minimality mode. -/
lemma get_opcode_nop (N p : Nat) (v : Bool) (hp : p < N) :
    get_opcode (List.replicate N 97) p v = .ok (97, none, p + 1) := by
  have hp' : p < (List.replicate N 97).length := by simpa using hp
  unfold get_opcode
  rw [dif_pos hp']
  simp [List.get_eq_getElem, List.getElem_replicate]

/-- One step of an all-OP_NOP script under succeeding no-op handlers: count
the op, advance one byte, apply the post-step op-count check. -/
lemma eval_instruction_nop (lookup : Nat → Handler) (s : VMState) (N : Nat)
    (hscript : s.script = List.replicate N 97) (hpc : s.pc < N)
    (hstack : s.stack.length + s.altstack.length ≤ MAX_STACK_SIZE)
    (hid : ∀ op st, (lookup op).run st = .ok st) :
    eval_instruction get_opcode lookup s
      = step_finish (s.pc + 1) { s with op_count := s.op_count + 1 } := by
  have hdec : get_opcode s.script s.pc ((s.flags &&& VERIFY_MINIMALDATA != 0) &&
      ConditionalStack.all_if_true s.conditional_stack) = .ok (97, none, s.pc + 1) := by
    rw [hscript]; exact get_opcode_nop N s.pc _ hpc
  rw [eval_instruction_characterize get_opcode lookup s 97 none (s.pc + 1) hdec rfl hstack,
    hid, ite_self]
  rfl

/-- Running the loop over a 202-OP_NOP script under succeeding no-op handlers
from a state whose op count equals its pc always ends in the op-count
error. -/
lemma nop_loop : ∀ (k : Nat) (lookup : Nat → Handler) (fuel : Nat) (s : VMState),
    (∀ op st, (lookup op).run st = .ok st) →
    s.script = List.replicate 202 97 →
    s.pc + k = 202 → s.op_count = s.pc →
    s.stack = [] → s.altstack = [] →
    1 ≤ k → k ≤ fuel →
    eval_loop get_opcode lookup fuel s
      = .error ⟨"script contains too many operations", ScriptErrno.OP_COUNT⟩ := by
  intro k
  induction k with
  | zero => intro lookup fuel s _ _ _ _ _ _ hk _; omega
  | succ n ih =>
    intro lookup fuel s hid hscript hpk hoc hstk halt _ hfuel
    obtain ⟨f, rfl⟩ : ∃ f, fuel = f + 1 := ⟨fuel - 1, by omega⟩
    have hpcN : s.pc < 202 := by omega
    have hpc : s.pc < s.script.length := by rw [hscript]; simpa using hpcN
    have hstack : s.stack.length + s.altstack.length ≤ MAX_STACK_SIZE := by
      rw [hstk, halt]; simp [MAX_STACK_SIZE]
    simp only [eval_loop]
    rw [if_pos hpc, eval_instruction_nop lookup s 202 hscript hpcN hstack hid]
    simp only [step_finish]
    by_cases hov : MAX_OP_COUNT < s.op_count + 1
    · rw [if_pos hov]
      rfl
    · rw [if_neg hov]
      have hn1 : 1 ≤ n := by
        simp only [MAX_OP_COUNT] at hov
        omega
      show eval_loop get_opcode lookup f _ = _
      apply ih lookup f _ hid
      · simpa using hscript
      · show s.pc + 1 + n = 202; omega
      · show s.op_count + 1 = s.pc + 1; omega
      · simpa using hstk
      · simpa using halt
      · exact hn1
      · omega

/-- C3 counterexample: a context whose handlers all succeed (each returns a
state, merely resetting `op_count`) makes a script of MAX_OP_COUNT + 1
non-push opcodes evaluate successfully instead of failing with the
too-many-operations error. -/
theorem op_count_context_counterexample :
    eval_script get_opcode lookup_reset 0 (List.replicate (MAX_OP_COUNT + 1) 97) none
      = .ok [] := by
  rfl

/-- C3 (amended): (i) a non-push step increments `op_count` exactly once;
(ii) a push step never increments it; (iii) the op-count ceiling is checked
after the handler has run and `pc` has advanced, not before — a failing
handler's error always wins; (iv) consequently, under handlers that succeed
and return the state unchanged, a script of MAX_OP_COUNT + 1 non-push opcodes
fails with the too-many-operations error. -/
theorem op_count_discipline :
    (∀ (g : Decoder) (lookup : Nat → Handler) (s : VMState) (opcode pc : Nat),
      g s.script s.pc ((s.flags &&& VERIFY_MINIMALDATA != 0) &&
          ConditionalStack.all_if_true s.conditional_stack) = .ok (opcode, none, pc) →
      s.stack.length + s.altstack.length ≤ MAX_STACK_SIZE →
      (∀ st, (lookup opcode).run st = .ok st) →
      eval_instruction g lookup s = step_finish pc { s with op_count := s.op_count + 1 })
    ∧ (∀ (g : Decoder) (lookup : Nat → Handler) (s : VMState) (opcode : Nat) (d : Bytes) (pc : Nat),
      g s.script s.pc ((s.flags &&& VERIFY_MINIMALDATA != 0) &&
          ConditionalStack.all_if_true s.conditional_stack) = .ok (opcode, some d, pc) →
      d.length ≤ MAX_BLOB_LENGTH →
      s.stack.length + s.altstack.length ≤ MAX_STACK_SIZE →
      (∀ st, (lookup opcode).run st = .ok st) →
      eval_instruction g lookup s
        = step_finish pc (push_if_active (some d) (ConditionalStack.all_if_true s.conditional_stack) s))
    ∧ (∀ (g : Decoder) (lookup : Nat → Handler) (s : VMState) (opcode pc : Nat) (e : ScriptError),
      g s.script s.pc ((s.flags &&& VERIFY_MINIMALDATA != 0) &&
          ConditionalStack.all_if_true s.conditional_stack) = .ok (opcode, none, pc) →
      s.stack.length + s.altstack.length ≤ MAX_STACK_SIZE →
      ConditionalStack.all_if_true s.conditional_stack = true →
      (∀ st, (lookup opcode).run st = .error e) →
      eval_instruction g lookup s = .error e)
    ∧ (∀ (flags : Nat) (lookup : Nat → Handler),
      (∀ op st, (lookup op).run st = .ok st) →
      eval_script get_opcode lookup flags (List.replicate (MAX_OP_COUNT + 1) 97) none
        = .error ⟨"script contains too many operations", ScriptErrno.OP_COUNT⟩) := by
  refine ⟨?_, ?_, ?_, ?_⟩
  · intro g lookup s opcode pc hdec hstack hid
    rw [eval_instruction_characterize g lookup s opcode none pc hdec rfl hstack, hid, ite_self]
    rfl
  · intro g lookup s opcode d pc hdec hlen hstack hid
    have hbig : data_push_too_big (some d) = false := by
      simp [data_push_too_big, Nat.not_lt.mpr hlen]
    rw [eval_instruction_characterize g lookup s opcode (some d) pc hdec hbig hstack, hid, ite_self]
    rfl
  · intro g lookup s opcode pc e hdec hstack hall herr
    rw [eval_instruction_characterize g lookup s opcode none pc hdec rfl hstack, hall, herr]
    rfl
  · intro flags lookup hid
    show eval_script get_opcode lookup flags (List.replicate 202 97) none = _
    have hlen : (List.replicate 202 97).length = 202 := by simp
    unfold eval_script
    rw [if_neg (by rw [hlen]; simp [MAX_SCRIPT_LENGTH])]
    rw [hlen]
    rw [nop_loop 202 lookup 203 (initial_state flags (List.replicate 202 97) none) hid rfl
      (by simp [initial_state]) rfl rfl rfl (by omega) (by omega)]
    rfl

/-- C3 witness: with the identity handler table, 202 OP_NOPs fail with the
too-many-operations error. -/
theorem op_count_discipline_witness :
    eval_script get_opcode lookup_id 0 (List.replicate (MAX_OP_COUNT + 1) 97) none
      = .error ⟨"script contains too many operations", ScriptErrno.OP_COUNT⟩ :=
  op_count_discipline.2.2.2 0 lookup_id (fun _ _ => rfl)

/-- Every successful decode strictly advances the program counter and stays
within the script. -/
lemma get_opcode_ok_bounds {script : Bytes} {pc : Nat} {v : Bool} {opcode : Nat}
    {data : Option Bytes} {new_pc : Nat}
    (h : get_opcode script pc v = .ok (opcode, data, new_pc)) :
    pc < new_pc ∧ new_pc ≤ script.length := by
  unfold get_opcode at h
  by_cases hpc : pc < script.length
  · rw [dif_pos hpc] at h
    dsimp only at h
    split at h
    · obtain ⟨-, -, h3⟩ : _ ∧ _ ∧ pc + 1 = new_pc := by simpa using h
      omega
    · split at h
      · split at h
        · exact absurd h (by simp)
        · split at h
          · exact absurd h (by simp)
          · rename_i hle hlen hmin
            obtain ⟨-, -, h3⟩ : _ ∧ _ ∧ pc + 1 + script.get ⟨pc, hpc⟩ = new_pc := by simpa using h
            simp only [sublist, List.length_take, List.length_drop] at hlen
            omega
      · split at h
        · split at h
          · exact absurd h (by simp)
          · split at h
            · exact absurd h (by simp)
            · split at h
              · exact absurd h (by simp)
              · rename_i hne hgt hpd hsz hdata hmin
                simp only [Except.ok.injEq, Prod.mk.injEq] at h
                obtain ⟨h1, h2, h3⟩ := h
                subst h3
                have hdl : 1 ≤ pushdata_size_length (script.get ⟨pc, hpc⟩) := by
                  unfold pushdata_size_length
                  split
                  · omega
                  · split <;> omega
                simp only [sublist, List.length_take, List.length_drop] at hsz hdata ⊢
                omega
        · split at h
          · simp only [Except.ok.injEq, Prod.mk.injEq] at h
            obtain ⟨h1, h2, h3⟩ := h
            subst h3
            omega
          · split at h
            · simp only [Except.ok.injEq, Prod.mk.injEq] at h
              obtain ⟨h1, h2, h3⟩ := h
              subst h3
              omega
            · simp only [Except.ok.injEq, Prod.mk.injEq] at h
              obtain ⟨h1, h2, h3⟩ := h
              subst h3
              omega
  · rw [dif_neg hpc] at h
    exact absurd h (by simp)

/-- A successful run of the record generator produces a contiguous chain of
in-bounds byte ranges from the start offset to the end of the script. -/
lemma get_opcodesAux_chain (script : Bytes) (v : Bool) :
    ∀ (fuel p : Nat) (rs : List OpRecord), p ≤ script.length →
      get_opcodesAux script v fuel p = .ok rs → chain_to script p script.length rs := by
  intro fuel
  induction fuel with
  | zero => intro p rs hp h; exact absurd h (by simp [get_opcodesAux])
  | succ f ih =>
    intro p rs hp h
    unfold get_opcodesAux at h
    by_cases hpc : p < script.length
    · rw [if_pos hpc] at h
      cases hg : get_opcode script p v with
      | error e => rw [hg] at h; exact absurd h (by simp)
      | ok t =>
        obtain ⟨op, data, npc⟩ := t
        rw [hg] at h
        dsimp only at h
        cases hr : get_opcodesAux script v f npc with
        | error e => rw [hr] at h; exact absurd h (by simp)
        | ok rest =>
          rw [hr] at h
          obtain ⟨hb1, hb2⟩ := get_opcode_ok_bounds hg
          have hrest := ih npc rest hb2 hr
          simp only [Except.ok.injEq] at h
          subst h
          exact ⟨rfl, hb1, hb2, hrest⟩
    · rw [if_neg hpc] at h
      simp only [Except.ok.injEq] at h
      subst h
      show p = script.length
      omega

/-- A chain only moves the offset forward. -/
lemma chain_to_le (script : Bytes) :
    ∀ (rs : List OpRecord) (p q : Nat), chain_to script p q rs → p ≤ q := by
  intro rs
  induction rs with
  | nil => intro p q h; exact le_of_eq h
  | cons r rest ih =>
    intro p q h
    obtain ⟨-, h2, -, h4⟩ := h
    exact le_trans (le_of_lt h2) (ih _ _ h4)

/-- The concatenation of the byte ranges of a chain is exactly the underlying
slice of the script. -/
lemma chain_to_join (script : Bytes) :
    ∀ (rs : List OpRecord) (p q : Nat), chain_to script p q rs →
      List.flatten (rs.map fun r => sublist script r.pc r.new_pc) = (script.drop p).take (q - p) := by
  intro rs
  induction rs with
  | nil =>
    intro p q h
    have hpq : p = q := h
    subst hpq
    simp
  | cons r rest ih =>
    intro p q h
    obtain ⟨h1, h2, h3, h4⟩ := h
    have hq := chain_to_le script rest r.new_pc q h4
    simp only [List.map_cons, List.flatten_cons]
    rw [ih r.new_pc q h4, h1, sublist]
    have hd : (script.drop p).drop (r.new_pc - p) = script.drop r.new_pc := by
      rw [List.drop_drop]
      congr 1
      omega
    rw [← hd]
    have hsum : q - p = (r.new_pc - p) + (q - r.new_pc) := by omega
    rw [hsum, List.take_add]

/-- A chain over an append splits at an intermediate offset. -/
lemma chain_to_append (script : Bytes) :
    ∀ (xs ys : List OpRecord) (p q : Nat), chain_to script p q (xs ++ ys) →
      ∃ m, chain_to script p m xs ∧ chain_to script m q ys := by
  intro xs
  induction xs with
  | nil => intro ys p q h; exact ⟨p, rfl, h⟩
  | cons r rest ih =>
    intro ys p q h
    obtain ⟨h1, h2, h3, h4⟩ := h
    obtain ⟨m, hm1, hm2⟩ := ih ys r.new_pc q h4
    exact ⟨m, ⟨h1, h2, h3, hm1⟩, hm2⟩

/-- The rebuild fold of `delete_subscript` keeps exactly the non-matching
byte ranges, in order. -/
lemma delete_foldl (script sub : Bytes) :
    ∀ (rs : List OpRecord) (acc : Bytes),
      rs.foldl (fun new_script r =>
        if sublist script r.pc r.new_pc = sub then new_script
        else new_script ++ sublist script r.pc r.new_pc) acc
      = acc ++ List.flatten (rs.filterMap fun r =>
          if sublist script r.pc r.new_pc = sub then none
          else some (sublist script r.pc r.new_pc)) := by
  intro rs
  induction rs with
  | nil => intro acc; simp
  | cons r rest ih =>
    intro acc
    by_cases hc : sublist script r.pc r.new_pc = sub
    · simp [hc, ih]
    · simp [hc, ih, List.append_assoc]

/-- When no record's byte range matches, the filter keeps every byte range. -/
lemma filterMap_no_match (script sub : Bytes) :
    ∀ (l : List OpRecord), (∀ x ∈ l, sublist script x.pc x.new_pc ≠ sub) →
      (l.filterMap fun x =>
        if sublist script x.pc x.new_pc = sub then none
        else some (sublist script x.pc x.new_pc))
      = l.map fun x => sublist script x.pc x.new_pc := by
  intro l
  induction l with
  | nil => intro _; rfl
  | cons r rest ih =>
    intro hl
    have h1 : sublist script r.pc r.new_pc ≠ sub := hl r (List.mem_cons_self _ _)
    have h2 := ih fun x hx => hl x (List.mem_cons_of_mem _ hx)
    simp [h1, h2]

/-- `delete_subscript` computed: the concatenation of the non-matching
decoded byte ranges. -/
lemma delete_subscript_eq (script sub : Bytes) (records : List OpRecord)
    (h : get_opcodes script false 0 = .ok records) :
    delete_subscript script sub
      = .ok (List.flatten (records.filterMap fun r =>
          if sublist script r.pc r.new_pc = sub then none
          else some (sublist script r.pc r.new_pc))) := by
  unfold delete_subscript
  rw [h]
  dsimp only
  rw [delete_foldl]
  simp

/-- The chain underlying a successful `get_opcodes` run. -/
lemma get_opcodes_chain (script : Bytes) (records : List OpRecord)
    (h : get_opcodes script false 0 = .ok records) :
    chain_to script 0 script.length records := by
  unfold get_opcodes at h
  exact get_opcodesAux_chain script false (script.length + 1) 0 records (Nat.zero_le _) h

/-- When no decoded instruction's byte range equals the subscript, the script
is rebuilt unchanged. -/
lemma delete_subscript_no_match (script sub : Bytes) (records : List OpRecord)
    (h : get_opcodes script false 0 = .ok records)
    (hnm : ∀ r ∈ records, sublist script r.pc r.new_pc ≠ sub) :
    delete_subscript script sub = .ok script := by
  rw [delete_subscript_eq script sub records h, filterMap_no_match script sub records hnm,
    chain_to_join script records 0 script.length (get_opcodes_chain script records h)]
  simp

/-- When exactly one decoded instruction's byte range equals the subscript,
the rebuilt script is the original with exactly that byte range removed. -/
lemma delete_subscript_single_match (script sub : Bytes) (records : List OpRecord)
    (rs₁ : List OpRecord) (r : OpRecord) (rs₂ : List OpRecord)
    (h : get_opcodes script false 0 = .ok records)
    (hsplit : records = rs₁ ++ r :: rs₂)
    (hr : sublist script r.pc r.new_pc = sub)
    (hothers : ∀ x ∈ rs₁ ++ rs₂, sublist script x.pc x.new_pc ≠ sub) :
    delete_subscript script sub = .ok (script.take r.pc ++ script.drop r.new_pc) := by
  have hchain : chain_to script 0 script.length records := get_opcodes_chain script records h
  rw [delete_subscript_eq script sub records h]
  subst hsplit
  obtain ⟨m, hm1, hm2⟩ := chain_to_append script rs₁ (r :: rs₂) 0 script.length hchain
  obtain ⟨hr1, hr2, hr3, hr4⟩ := hm2
  have ho1 : ∀ x ∈ rs₁, sublist script x.pc x.new_pc ≠ sub := by
    intro x hx; exact hothers x (List.mem_append_left _ hx)
  have ho2 : ∀ x ∈ rs₂, sublist script x.pc x.new_pc ≠ sub := by
    intro x hx; exact hothers x (List.mem_append_right _ hx)
  rw [List.filterMap_append]
  rw [filterMap_no_match script sub rs₁ ho1]
  have hhead : ((r :: rs₂).filterMap fun x =>
      if sublist script x.pc x.new_pc = sub then none
      else some (sublist script x.pc x.new_pc))
      = rs₂.filterMap fun x =>
        if sublist script x.pc x.new_pc = sub then none
        else some (sublist script x.pc x.new_pc) := by
    simp [hr]
  rw [hhead, filterMap_no_match script sub rs₂ ho2, List.flatten_append,
    chain_to_join script rs₁ 0 m hm1, chain_to_join script rs₂ r.new_pc script.length hr4]
  have hdrop : (script.drop r.new_pc).take (script.length - r.new_pc) = script.drop r.new_pc := by
    rw [← List.length_drop]
    exact List.take_length _
  rw [hdrop]
  simp only [List.drop_zero, Nat.sub_zero]
  rw [← hr1]

/-- C7: `delete_subscript` returns exactly the in-order concatenation of the
byte ranges of the decoded instructions whose range does not equal the
subscript byte-for-byte; hence when no instruction's byte range equals the
subscript (in particular for occurrences not aligned to opcode boundaries)
the script is returned unchanged, and when exactly one instruction's byte
range equals it, exactly that instruction's bytes and no others are
removed. -/
theorem delete_subscript_exact_sections :
    ∀ (script subscript : Bytes) (records : List OpRecord),
      get_opcodes script false 0 = .ok records →
      (delete_subscript script subscript
          = .ok (List.flatten (records.filterMap fun r =>
              if sublist script r.pc r.new_pc = subscript then none
              else some (sublist script r.pc r.new_pc))))
      ∧ ((∀ r ∈ records, sublist script r.pc r.new_pc ≠ subscript) →
          delete_subscript script subscript = .ok script)
      ∧ (∀ (rs₁ : List OpRecord) (r : OpRecord) (rs₂ : List OpRecord),
          records = rs₁ ++ r :: rs₂ →
          sublist script r.pc r.new_pc = subscript →
          (∀ x ∈ rs₁ ++ rs₂, sublist script x.pc x.new_pc ≠ subscript) →
          delete_subscript script subscript
            = .ok (script.take r.pc ++ script.drop r.new_pc)) := by
  intro script subscript records h
  refine ⟨delete_subscript_eq script subscript records h,
    delete_subscript_no_match script subscript records h, ?_⟩
  intro rs₁ r rs₂ hsplit hr hothers
  exact delete_subscript_single_match script subscript records rs₁ r rs₂ h hsplit hr hothers

/-- C7 witness: in the script OP_1 OP_NOP, deleting the byte range of the
OP_NOP instruction removes exactly that byte. -/
theorem delete_subscript_exact_sections_witness :
    delete_subscript [81, 97] [97] = .ok ([81, 97].take 1 ++ [81, 97].drop 2) :=
  (delete_subscript_exact_sections [81, 97] [97]
      [⟨81, some [1], 0, 1⟩, ⟨97, none, 1, 2⟩] rfl).2.2
    [⟨81, some [1], 0, 1⟩] ⟨97, none, 1, 2⟩ [] rfl rfl (by decide)

/-- C10: a subscript equal to the concatenated byte ranges of two or more
consecutive whole instructions, but to no single instruction's byte range, is
never removed: the script comes back unchanged. -/
theorem delete_subscript_multi_instruction :
    ∀ (script subscript : Bytes) (records rs₁ mid rs₂ : List OpRecord),
      get_opcodes script false 0 = .ok records →
      records = rs₁ ++ mid ++ rs₂ →
      2 ≤ mid.length →
      subscript = List.flatten (mid.map fun r => sublist script r.pc r.new_pc) →
      (∀ r ∈ records, sublist script r.pc r.new_pc ≠ subscript) →
      delete_subscript script subscript = .ok script := by
  intro script subscript records rs₁ mid rs₂ h _ _ _ hnm
  exact delete_subscript_no_match script subscript records h hnm

/-- C10 witness: in the script OP_1 OP_2, the opcode-aligned two-instruction
subscript equal to the whole script is not removed. -/
theorem delete_subscript_multi_instruction_witness :
    delete_subscript [81, 82] [81, 82] = .ok [81, 82] :=
  delete_subscript_multi_instruction [81, 82] [81, 82]
    [⟨81, some [1], 0, 1⟩, ⟨82, some [2], 1, 2⟩] []
    [⟨81, some [1], 0, 1⟩, ⟨82, some [2], 1, 2⟩] [] rfl rfl (by decide) rfl (by decide)

/-- Success inversion for `bool_from_script_bytes`: the result is the
truthiness of the decoded integer, and under minimality the input is the
canonical encoding of its own value, which is 0 or 1. -/
lemma bool_from_script_bytes_ok {b : Bytes} {rm r : Bool}
    (h : bool_from_script_bytes b rm = .ok r) :
    r = (raw_decode b != 0)
    ∧ (rm = true → b = int_to_script_bytes (raw_decode b)
        ∧ (raw_decode b = 0 ∨ raw_decode b = 1)) := by
  unfold bool_from_script_bytes int_from_script_bytes at h
  split at h
  · exact absurd h (by simp)
  · rename_i v h1
    have hbv : ¬(rm = true ∧ b ≠ int_to_script_bytes (raw_decode b)) ∧ raw_decode b = v := by
      by_cases hC : rm = true ∧ b ≠ int_to_script_bytes (raw_decode b)
      · rw [if_pos hC] at h1
        exact absurd h1 (by simp)
      · rw [if_neg hC] at h1
        simp only [Except.ok.injEq] at h1
        exact ⟨hC, h1⟩
    obtain ⟨hC, hv⟩ := hbv
    subst hv
    split at h
    · exact absurd h (by simp)
    · rename_i h2
      simp only [Except.ok.injEq] at h
      refine ⟨h.symm, ?_⟩
      intro hrm
      subst hrm
      constructor
      · by_contra hc
        exact hC ⟨rfl, hc⟩
      · by_contra hc
        push_neg at hc
        exact h2 ⟨rfl, hc.1, hc.2⟩

/-- C8: `bool_from_script_bytes` decodes its input as an integer and returns
true exactly when that integer is nonzero; under `require_minimal` it
succeeds only on the canonical encodings of 0 (the empty string, giving
false) and 1 (the single byte 1, giving true), and fails with a ScriptError
on every other input. -/
theorem bool_from_script_bytes_semantics :
    (∀ (b : Bytes) (require_minimal r : Bool),
        bool_from_script_bytes b require_minimal = .ok r → (r = true ↔ raw_decode b ≠ 0))
    ∧ (∀ b : Bytes, bool_from_script_bytes b false = .ok (raw_decode b != 0))
    ∧ (∀ (b : Bytes) (r : Bool), bool_from_script_bytes b true = .ok r →
        (b = [] ∧ r = false) ∨ (b = [1] ∧ r = true))
    ∧ (∀ b : Bytes, b ≠ [] → b ≠ [1] → ∃ e, bool_from_script_bytes b true = .error e) := by
  have key : ∀ (b : Bytes) (r : Bool), bool_from_script_bytes b true = .ok r →
      (b = [] ∧ r = false) ∨ (b = [1] ∧ r = true) := by
    intro b r h
    obtain ⟨h1, h2⟩ := bool_from_script_bytes_ok h
    obtain ⟨hb, hv⟩ := h2 rfl
    rcases hv with hv | hv
    · left
      rw [hv] at hb h1
      constructor
      · rw [hb]; rfl
      · simpa using h1
    · right
      rw [hv] at hb h1
      constructor
      · rw [hb]; rfl
      · simpa using h1
  refine ⟨?_, ?_, key, ?_⟩
  · intro b rm r h
    obtain ⟨h1, -⟩ := bool_from_script_bytes_ok h
    subst h1
    simp [bne_iff_ne]
  · intro b
    unfold bool_from_script_bytes int_from_script_bytes
    simp
  · intro b hb1 hb2
    cases hc : bool_from_script_bytes b true with
    | error e => exact ⟨e, rfl⟩
    | ok r =>
      rcases key b r hc with ⟨hb, -⟩ | ⟨hb, -⟩
      · exact absurd hb hb1
      · exact absurd hb hb2

/-- C8 witness: the canonical encoding of 1 decodes to true under
minimality. -/
theorem bool_from_script_bytes_semantics_witness :
    (([1] : Bytes) = [] ∧ true = false) ∨ (([1] : Bytes) = [1] ∧ true = true) :=
  bool_from_script_bytes_semantics.2.2.1 [1] true rfl

end PycoinVM
